import Mathlib

/-!
Verification development for the Umple language-server orchestration layer
(`server/src/server.ts`, given as `src/unnamed/part_001`).

The TypeScript source is shallowly embedded: pure string/array functions are
translated to executable Lean functions on `String` / `List Char`, and the
stateful parts (debounce timers, the model cache, the retry loop, the
resource lifecycle of temp files and shadow directories) become explicit
state-passing functions over small state records, with external collaborators
(the compiler bridge socket, the filesystem, `JSON.parse`) modelled as
oracle parameters.  JavaScript numbers reaching the embedded code are
integers or `NaN`, modelled by `JsNum`.
-/

namespace UmpleLsp

/-! ## JavaScript primitives

`JsNum` models the values of JavaScript `Number(...)` conversions that the
server performs on the compiler's JSON string fields: an integer or `NaN`.
-/

inductive JsNum where
  | nan : JsNum
  | num : Int → JsNum
deriving DecidableEq, Repr

/-- Numeric value of a list of decimal digits, most significant first. -/
def digitsToNat (cs : List Char) : Nat :=
  cs.foldl (fun acc c => acc * 10 + (c.toNat - 48)) 0

/-- Models JavaScript `String.prototype.trim` on the character list of a
string: strip leading and trailing whitespace. -/
def jsTrim (cs : List Char) : List Char :=
  ((cs.dropWhile Char.isWhitespace).reverse.dropWhile Char.isWhitespace).reverse

/-- Models the JavaScript builtin `Number(s)` on the string arguments the
server passes to it (`result.line`, `result.severity` and their `"1"`/`"3"`
defaults): after trimming, the empty string converts to `0`, an optionally
negated run of decimal digits converts to the corresponding integer, and
anything else to `NaN`. -/
def jsNumber (s : String) : JsNum :=
  match jsTrim s.data with
  | [] => JsNum.num 0
  | '-' :: rest =>
      if rest ≠ [] ∧ rest.all Char.isDigit then JsNum.num (-(digitsToNat rest : Int))
      else JsNum.nan
  | cs =>
      if cs.all Char.isDigit then JsNum.num (digitsToNat cs)
      else JsNum.nan

/-- `x - 1` on a JS number (`NaN` propagates). -/
def jsSub1 : JsNum → JsNum
  | JsNum.nan => JsNum.nan
  | JsNum.num n => JsNum.num (n - 1)

/-- Models `Math.max(x, m)` for an integer `m` (`NaN` propagates, as in JS). -/
def jsMax (x : JsNum) (m : Int) : JsNum
  := match x with
  | JsNum.nan => JsNum.nan
  | JsNum.num n => JsNum.num (max n m)

/-! ## Splitting a document into lines

`server.ts` line 526: `document.getText().split(/\r?\n/)`.  The regex splits
at every `"\n"`, consuming one immediately preceding `"\r"`; a `"\r"` not
followed by `"\n"` is kept.  JavaScript `split` on the empty string yields
`[""]`, modelled by `[[]]`.
-/

def splitLinesCore : List Char → List (List Char)
  | [] => [[]]
  | '\r' :: '\n' :: rest => [] :: splitLinesCore rest
  | '\n' :: rest => [] :: splitLinesCore rest
  | c :: rest =>
      match splitLinesCore rest with
      | [] => [[c]]
      | l :: ls => (c :: l) :: ls

/-- The line list of a document text, as in `text.split(/\r?\n/)`. -/
def splitLines (s : String) : List (List Char) :=
  splitLinesCore s.data

/-! ## Diagnostics (`parseUmpleJsonDiagnostics`, lines 506-559)

One JSON record of the compiler's `{results:[...]}` payload.  The fields are
the string fields of the TypeScript type `UmpleJsonResult` (lines 481-488);
a missing JSON field is `none`.
-/

structure UmpleJsonResult where
  errorCode : Option String := none
  severity : Option String := none
  url : Option String := none
  line : Option String := none
  filename : Option String := none
  message : Option String := none
deriving DecidableEq, Repr

inductive Severity where
  | error : Severity
  | warning : Severity
deriving DecidableEq, Repr

structure DiagPosition where
  line : JsNum
  character : Nat
deriving DecidableEq, Repr

structure DiagRange where
  start : DiagPosition
  stop : DiagPosition
deriving DecidableEq, Repr

structure Diagnostic where
  severity : Severity
  range : DiagRange
  message : String
  src : String
deriving DecidableEq, Repr

/-- The body of the `parsed.results.map` callback (lines 527-555): turn one
result record into a diagnostic, given the document's line list.

* `lineNumber = Math.max(Number(result.line ?? "1") - 1, 0)` (line 528);
* `lineText = lines[lineNumber] ?? ""` (line 529) — an out-of-range or `NaN`
  index reads `undefined`, defaulted to the empty line;
* `startChar` is the index of the first non-whitespace character of the line,
  `0` when there is none (`lineText.search(/\S/)`, lines 530-531);
* a severity value above `2` is a warning, anything else (including `NaN`)
  an error (lines 532-536);
* the message joins `"E"`/`"W" + errorCode` (when `errorCode` is truthy,
  i.e. present and nonempty) and the record's `message` (when truthy) with
  `": "` (lines 538-544, 552). -/
def diagnosticOfResult (lines : List (List Char)) (result : UmpleJsonResult) :
    Diagnostic :=
  let lineNumber := jsMax (jsSub1 (jsNumber (result.line.getD "1"))) 0
  let lineText : List Char :=
    match lineNumber with
    | JsNum.nan => []
    | JsNum.num n => lines.getD n.toNat []
  let startChar := (lineText.findIdx? (fun c => !c.isWhitespace)).getD 0
  let severityValue := jsNumber (result.severity.getD "3")
  let severity :=
    match severityValue with
    | JsNum.num n => if n > 2 then Severity.warning else Severity.error
    | JsNum.nan => Severity.error
  let codePart : Option String :=
    match result.errorCode with
    | some c =>
        if c ≠ "" then
          some ((if severity = Severity.warning then "W" else "E") ++ c)
        else none
    | none => none
  let msgPart : Option String :=
    match result.message with
    | some m => if m ≠ "" then some m else none
    | none => none
  { severity := severity
    range :=
      { start := { line := lineNumber, character := startChar }
        stop := { line := lineNumber, character := lineText.length } }
    message := String.intercalate ": " ([codePart, msgPart].filterMap id)
    src := "umple" }

/-- `parseUmpleJsonDiagnostics` (lines 506-559) applied to an error stream
whose extracted JSON parsed to the record list `results`.  `JSON.parse` is a
platform builtin; its output on the `{results:[...]}` payload is the record
list passed here.  (When the stream is blank, holds no JSON object or fails
to parse, the source returns `[]` before reaching this map.) -/
def parseUmpleJsonDiagnostics (results : List UmpleJsonResult)
    (docText : String) : List Diagnostic :=
  results.map (diagnosticOfResult (splitLines docText))

/-- C1: on a 5-line document, the record parsed from
`\x7b"results":[\x7b"line":"3","severity":"1","errorCode":"12","message":"bad"\x7d]\x7d`
yields exactly one diagnostic: `Error` severity, on line index `2`, ranging
from the first non-whitespace character of that line (`0` when the line is
all whitespace) to the line's length, with message `"E12: bad"`; and in
general a record whose severity field converts to a number above `2` maps to
`Warning`, any other severity value (at most `2`, or `NaN`) to `Error`. -/
theorem C1_diagnostics (docText : String)
    (_h5 : (splitLines docText).length = 5) :
    parseUmpleJsonDiagnostics
      [{ errorCode := some "12", severity := some "1", line := some "3",
         message := some "bad" }] docText =
      [{ severity := Severity.error
         range :=
           { start :=
               { line := JsNum.num 2
                 character :=
                   (((splitLines docText).getD 2 []).findIdx?
                     (fun c => !c.isWhitespace)).getD 0 }
             stop :=
               { line := JsNum.num 2
                 character := ((splitLines docText).getD 2 []).length } }
         message := "E12: bad"
         src := "umple" }] ∧
    ∀ (lines : List (List Char)) (r : UmpleJsonResult),
      (diagnosticOfResult lines r).severity = Severity.warning ↔
      ∃ n : Int, jsNumber (r.severity.getD "3") = JsNum.num n ∧ 2 < n := by
  constructor
  · rfl
  · intro lines r
    unfold diagnosticOfResult
    rcases h : jsNumber (r.severity.getD "3") with _ | n
    · simp [h]
    · by_cases hn : 2 < n
      · simp [h, hn]
      · simp [h, hn]

/-- Witness for `C1_diagnostics` at the concrete 5-line document
`"a\n b\n  c\nd\ne"`: its third line is `"  c"`, so the single diagnostic
spans characters 2 to 3 of line index 2. -/
theorem C1_diagnostics_witness :
    (splitLines "a\n b\n  c\nd\ne").length = 5 ∧
    parseUmpleJsonDiagnostics
      [{ errorCode := some "12", severity := some "1", line := some "3",
         message := some "bad" }] "a\n b\n  c\nd\ne" =
      [{ severity := Severity.error
         range := { start := { line := JsNum.num 2, character := 2 }
                    stop := { line := JsNum.num 2, character := 3 } }
         message := "E12: bad"
         src := "umple" }] :=
  ⟨by decide, ((C1_diagnostics "a\n b\n  c\nd\ne" (by decide)).1).trans (by decide)⟩

/-- C10: (a) a record with no severity field defaults to severity value `3`
and is published as a `Warning`; (b) a record with no line field defaults to
line `1` and lands on line index `0`; (c) a record whose (1-based) line
number exceeds the document's last line reads an empty line, yielding a
zero-width range at character `0` of that line index. -/
theorem C10_diagnostic_defaults (lines : List (List Char))
    (r : UmpleJsonResult) :
    (r.severity = none → (diagnosticOfResult lines r).severity = Severity.warning) ∧
    (r.line = none →
      (diagnosticOfResult lines r).range.start.line = JsNum.num 0 ∧
      (diagnosticOfResult lines r).range.stop.line = JsNum.num 0) ∧
    (∀ (s : String) (n : Int), r.line = some s → jsNumber s = JsNum.num n →
      1 ≤ n → lines.length ≤ (n - 1).toNat →
      (diagnosticOfResult lines r).range =
        { start := { line := JsNum.num (n - 1), character := 0 }
          stop := { line := JsNum.num (n - 1), character := 0 } }) := by
  have h3 : jsNumber "3" = JsNum.num 3 := by decide
  have h1' : jsNumber "1" = JsNum.num 1 := by decide
  refine ⟨fun hs => ?_, fun hl => ?_, fun s n hl hn h1 hlen => ?_⟩
  · unfold diagnosticOfResult
    simp [hs, h3]
  · unfold diagnosticOfResult
    simp [hl, h1', jsSub1, jsMax]
  · unfold diagnosticOfResult
    have hmax : max (n - 1) 0 = n - 1 := by omega
    have hidx : lines.length ≤ n.toNat - 1 := by omega
    have hget : lines[n.toNat - 1]? = none := List.getElem?_eq_none hidx
    simp [hl, hn, jsSub1, jsMax, hmax, hget]

/-- Witness for `C10_diagnostic_defaults`: the empty record (severity and
line missing) becomes a warning on line index 0, and a record with line
`"7"` on a 2-line document gets the zero-width range at character 0 of line
index 6. -/
theorem C10_diagnostic_defaults_witness :
    ((diagnosticOfResult (splitLines "a\nb") {}).severity = Severity.warning ∧
      (diagnosticOfResult (splitLines "a\nb") {}).range.start.line = JsNum.num 0) ∧
    (diagnosticOfResult (splitLines "a\nb") { line := some "7" }).range =
      { start := { line := JsNum.num 6, character := 0 }
        stop := { line := JsNum.num 6, character := 0 } } := by
  refine ⟨⟨?_, ?_⟩, ?_⟩
  · exact (C10_diagnostic_defaults (splitLines "a\nb") {}).1 rfl
  · exact ((C10_diagnostic_defaults (splitLines "a\nb") {}).2.1 rfl).1
  · exact (C10_diagnostic_defaults (splitLines "a\nb") { line := some "7" }).2.2
      "7" 7 rfl (by decide) (by decide) (by decide)

/-! ## Sentinel demultiplexing (`splitUmpleSyncOutput`, lines 426-450)

The combined socket stream is scanned for `"ERROR!!" … "!!ERROR"` marker
pairs; text outside pairs goes to stdout, text inside to stderr, and an
opening marker with no later closing marker routes the whole remainder to
stderr.
-/

/-- The opening sentinel `"ERROR!!"`. -/
def errOpen : List Char := "ERROR!!".data

/-- The closing sentinel `"!!ERROR"`. -/
def errClose : List Char := "!!ERROR".data

/-- Models `raw.indexOf(pat, i)` restricted to the suffix `raw.slice(i)`:
returns the text before the first occurrence of `pat` and the text after it
(`l = pre ++ pat ++ post` with `pre` shortest), or `none` when `pat` does
not occur. -/
def findSub (pat : List Char) : List Char → Option (List Char × List Char)
  | [] => if pat = [] then some ([], []) else none
  | c :: rest =>
      if pat.isPrefixOf (c :: rest) then some ([], (c :: rest).drop pat.length)
      else
        match findSub pat rest with
        | some (pre, post) => some (c :: pre, post)
        | none => none

/-- The `while` loop of `splitUmpleSyncOutput` on the not-yet-consumed
suffix of the stream, with a fuel argument: each iteration consumes at least
the 14 characters of a marker pair, so `length + 1` fuel always suffices and
the `0` case is never reached from `splitUmpleSyncOutput`.

* no opening marker: the rest is stdout (lines 432-436);
* opening marker but no closing marker after it: the text before the opening
  marker is stdout, everything after it is stderr (lines 439-443);
* a full pair: text before the pair joins stdout, text inside joins stderr,
  and the scan continues after the closing marker (lines 445-446). -/
def splitLoopF : Nat → List Char → List Char × List Char
  | 0, rem => (rem, [])
  | fuel + 1, rem =>
      match findSub errOpen rem with
      | none => (rem, [])
      | some (pre, post) =>
          match findSub errClose post with
          | none => (pre, post)
          | some (epre, epost) =>
              let r := splitLoopF fuel epost
              (pre ++ r.1, epre ++ r.2)

/-- `splitUmpleSyncOutput` (lines 426-450): demultiplex the raw stream into
`(stdout, stderr)`. -/
def splitUmpleSyncOutput (raw : String) : String × String :=
  let r := splitLoopF (raw.data.length + 1) raw.data
  (String.mk r.1, String.mk r.2)

/-- C2: the stream `"ok ERROR!!\x7b\"x\":1\x7d!!ERRORmore"` splits into
stdout `"ok more"` and stderr `"\x7b\"x\":1\x7d"`; and for every stream in
which the scan finds an opening `"ERROR!!"` marker (text `pre` before it,
`post` after it) with no matching `"!!ERROR"` marker anywhere after it, the
text before the marker is stdout and the entire remainder after the marker
is routed to stderr. -/
theorem C2_splitUmpleSyncOutput :
    splitUmpleSyncOutput "ok ERROR!!\x7b\"x\":1\x7d!!ERRORmore" =
      ("ok more", "\x7b\"x\":1\x7d") ∧
    ∀ (raw : String) (pre post : List Char),
      findSub errOpen raw.data = some (pre, post) →
      findSub errClose post = none →
      splitUmpleSyncOutput raw = (String.mk pre, String.mk post) := by
  constructor
  · decide
  · intro raw pre post hopen hclose
    simp [splitUmpleSyncOutput, splitLoopF, hopen, hclose]

/-- Witness for `C2_splitUmpleSyncOutput` at the truncated stream
`"aERROR!!xyz"`: the whole remainder `"xyz"` after the unmatched opening
marker goes to stderr. -/
theorem C2_splitUmpleSyncOutput_witness :
    findSub errOpen "aERROR!!xyz".data = some (['a'], ['x', 'y', 'z']) ∧
    findSub errClose ['x', 'y', 'z'] = none ∧
    splitUmpleSyncOutput "aERROR!!xyz" = ("a", "xyz") :=
  ⟨by decide, by decide,
    (C2_splitUmpleSyncOutput.2 "aERROR!!xyz" ['a'] ['x', 'y', 'z']
      (by decide) (by decide)).trans (by decide)⟩

/-! ## Context detection (`detectContext`, lines 880-1000)

A single left-to-right scan of the text before the cursor, with three
exclusive scanner modes (line comment, block comment, string literal) plus a
stack of open-brace scopes.  The source pushes scopes onto the end of a
JavaScript array and searches it from the end; here the stack is a cons
list with the innermost scope at the head.
-/

inductive ScanMode where
  | normal : ScanMode
  | lineComment : ScanMode
  | blockComment : ScanMode
  | stringLit : ScanMode
deriving DecidableEq, Repr

/-- The completion contexts of the TypeScript union type (lines 47-53);
`inClass` renders the source's `"class"` value. -/
inductive CompletionContext where
  | top : CompletionContext
  | inClass : CompletionContext
  | inStateMachine : CompletionContext
  | inAssociation : CompletionContext
  | inEnum : CompletionContext
  | unknown : CompletionContext
deriving DecidableEq, Repr

/-- The `keywordContext` record (lines 895-905): scope-opening keyword to the
context string pushed for its brace. -/
def keywordContext : String → Option String
  | "class" => some "class"
  | "trait" => some "class"
  | "interface" => some "class"
  | "association" => some "association"
  | "associationClass" => some "class"
  | "statemachine" => some "statemachine"
  | "enum" => some "enum"
  | "mixset" => some "top"
  | "filter" => some "top"
  | _ => none

/-- `/[A-Za-z_]/.test(ch)` (line 955). -/
def isWordStart (c : Char) : Bool := c.isAlpha || c = '_'

/-- `/[A-Za-z0-9_]/.test(ch)` (line 957). -/
def isWordChar (c : Char) : Bool := c.isAlpha || c.isDigit || c = '_'

/-- The character loop of `detectContext` (lines 912-985) on the remaining
window text, with fuel (every step consumes at least one character, so
`length + 1` fuel always suffices).  State: scanner mode, the pending
`lastKeyword`, and the scope stack (innermost first).

* line comments end at `"\n"`; block comments at `"*/"`; strings at an
  unescaped `"\""`, a backslash skipping the following character;
* a word is read as a maximal run of word characters; it becomes the
  pending keyword only when it is a key of `keywordContext` (line 961-963 —
  other words leave the pending keyword unchanged);
* `"\x7b"` pushes the pending keyword's context (a generic `"block"` when
  there is none) and clears the pending keyword; `"\x7d"` pops the innermost
  scope when the stack is nonempty and clears the pending keyword. -/
def scanLoop : Nat → ScanMode → Option String → List String → List Char →
    List String
  | 0, _, _, stack, _ => stack
  | _ + 1, _, _, stack, [] => stack
  | fuel + 1, ScanMode.lineComment, lk, stack, c :: rest =>
      scanLoop fuel (if c = '\n' then ScanMode.normal else ScanMode.lineComment)
        lk stack rest
  | fuel + 1, ScanMode.blockComment, lk, stack, '*' :: '/' :: rest =>
      scanLoop fuel ScanMode.normal lk stack rest
  | fuel + 1, ScanMode.blockComment, lk, stack, _ :: rest =>
      scanLoop fuel ScanMode.blockComment lk stack rest
  | _ + 1, ScanMode.stringLit, _, stack, ['\\'] => stack
  | fuel + 1, ScanMode.stringLit, lk, stack, '\\' :: _ :: rest =>
      scanLoop fuel ScanMode.stringLit lk stack rest
  | fuel + 1, ScanMode.stringLit, lk, stack, '"' :: rest =>
      scanLoop fuel ScanMode.normal lk stack rest
  | fuel + 1, ScanMode.stringLit, lk, stack, _ :: rest =>
      scanLoop fuel ScanMode.stringLit lk stack rest
  | fuel + 1, ScanMode.normal, lk, stack, '/' :: '/' :: rest =>
      scanLoop fuel ScanMode.lineComment lk stack rest
  | fuel + 1, ScanMode.normal, lk, stack, '/' :: '*' :: rest =>
      scanLoop fuel ScanMode.blockComment lk stack rest
  | fuel + 1, ScanMode.normal, lk, stack, '"' :: rest =>
      scanLoop fuel ScanMode.stringLit lk stack rest
  | fuel + 1, ScanMode.normal, lk, stack, '{' :: rest =>
      let entry :=
        match lk with
        | some w => (keywordContext w).getD "block"
        | none => "block"
      scanLoop fuel ScanMode.normal none (entry :: stack) rest
  | fuel + 1, ScanMode.normal, _, stack, '}' :: rest =>
      scanLoop fuel ScanMode.normal none stack.tail rest
  | fuel + 1, ScanMode.normal, lk, stack, c :: rest =>
      if isWordStart c then
        let word := String.mk (c :: rest.takeWhile isWordChar)
        let lk' := if (keywordContext word).isSome then some word else lk
        scanLoop fuel ScanMode.normal lk' stack (rest.dropWhile isWordChar)
      else scanLoop fuel ScanMode.normal lk stack rest

/-- The scope stack after scanning the text before the cursor, including the
20000-character window cap (lines 889-892). -/
def ctxStack (text : List Char) : List String :=
  let window := if text.length > 20000 then text.drop (text.length - 20000)
    else text
  scanLoop (window.length + 1) ScanMode.normal none [] window

/-- The test of the final stack search (lines 989-994). -/
def isCtxEntry (s : String) : Bool :=
  s = "statemachine" || s = "association" || s = "class" || s = "enum"

/-- `detectContext` (lines 880-1000) on the text from document start to the
cursor: the innermost stack entry that is a recognized scope, `top`
otherwise. -/
def detectContext (text : List Char) : CompletionContext :=
  match (ctxStack text).find? isCtxEntry with
  | some "statemachine" => CompletionContext.inStateMachine
  | some "association" => CompletionContext.inAssociation
  | some "class" => CompletionContext.inClass
  | some "enum" => CompletionContext.inEnum
  | _ => CompletionContext.top

/-- C5: `"class Foo \x7b\n  "` classifies as inside-class; a fully closed
class followed by top-level text classifies as top-level; an unbalanced
trailing `"\x7b"` with no preceding recognized keyword pushes a generic
`"block"` scope and classifies as top-level; and in general the returned
classification is the innermost stack entry among
class/statemachine/association/enum, defaulting to top-level when no such
entry exists. -/
theorem C5_detectContext :
    detectContext "class Foo \x7b\n  ".data = CompletionContext.inClass ∧
    detectContext "class Foo \x7b x; \x7d\n abc".data = CompletionContext.top ∧
    (ctxStack "foo \x7b\n".data = ["block"] ∧
      detectContext "foo \x7b\n".data = CompletionContext.top) ∧
    ∀ (text : List Char),
      (∀ e, (ctxStack text).find? isCtxEntry = some e →
        detectContext text =
          (if e = "statemachine" then CompletionContext.inStateMachine
           else if e = "association" then CompletionContext.inAssociation
           else if e = "class" then CompletionContext.inClass
           else CompletionContext.inEnum)) ∧
      ((ctxStack text).find? isCtxEntry = none →
        detectContext text = CompletionContext.top) := by
  refine ⟨by decide, by decide, ⟨by decide, by decide⟩, fun text => ⟨?_, ?_⟩⟩
  · intro e he
    have hp : isCtxEntry e = true := List.find?_some he
    have he4 : ((e = "statemachine" ∨ e = "association") ∨ e = "class") ∨
        e = "enum" := by
      simpa [isCtxEntry] using hp
    rcases he4 with ((h | h) | h) | h <;> subst h <;> simp [detectContext, he]
  · intro he
    simp [detectContext, he]

/-- Witness for `C5_detectContext` (innermost-entry component) at
`"statemachine sm \x7b"`: the single stack entry `"statemachine"` yields the
inside-state-machine classification. -/
theorem C5_detectContext_witness :
    (ctxStack "statemachine sm \x7b".data).find? isCtxEntry =
      some "statemachine" ∧
    detectContext "statemachine sm \x7b".data =
      CompletionContext.inStateMachine :=
  ⟨by decide,
    ((C5_detectContext.2.2.2 "statemachine sm \x7b".data).1 "statemachine"
      (by decide)).trans (by decide)⟩

/-! ## Debounce timers (`scheduleValidation`, lines 231-241)

`pendingValidations` maps a buffer URI to its one pending timer handle.
`scheduleValidation` clears the previously pending timer for the URI (if
any) and registers a fresh one; a firing timer first deletes its map entry.
Timer handles are modelled as consecutive `Nat` ids; the JavaScript runtime
is modelled by the rule that a timer can fire only if it was created by
`setTimeout`, has not been cleared by `clearTimeout`, and has not fired
already.  `created`, `cancelled` and `fired` record the history needed to
state that rule.
-/

structure SchedState where
  nextId : Nat
  pending : List (String × Nat)
  created : List (String × Nat)
  cancelled : List Nat
  fired : List Nat
deriving DecidableEq, Repr

/-- `pendingValidations.get(uri)` on the association-list model of the map. -/
def lookupTimer (m : List (String × Nat)) (uri : String) : Option Nat :=
  (m.find? (fun p => decide (p.1 = uri))).map Prod.snd

/-- `pendingValidations.delete(uri)` on the association-list model. -/
def removeUri (m : List (String × Nat)) (uri : String) : List (String × Nat) :=
  m.filter (fun p => !(decide (p.1 = uri)))

/-- `pendingValidations.set(uri, handle)` on the association-list model. -/
def setTimer (m : List (String × Nat)) (uri : String) (id : Nat) :
    List (String × Nat) :=
  (uri, id) :: removeUri m uri

def SchedState.init : SchedState :=
  { nextId := 0, pending := [], created := [], cancelled := [], fired := [] }

/-- `scheduleValidation` (lines 231-241): clear the existing pending timer
for the document's URI, register a fresh timer, record it in
`pendingValidations`. -/
def scheduleValidation (s : SchedState) (uri : String) : SchedState :=
  { nextId := s.nextId + 1
    pending := setTimer s.pending uri s.nextId
    created := (uri, s.nextId) :: s.created
    cancelled :=
      match lookupTimer s.pending uri with
      | some id => id :: s.cancelled
      | none => s.cancelled
    fired := s.fired }

/-- A timer that the runtime could still fire: created, not cleared, not
fired yet. -/
def TimerLive (s : SchedState) (uri : String) (id : Nat) : Prop :=
  (uri, id) ∈ s.created ∧ id ∉ s.cancelled ∧ id ∉ s.fired

instance (s : SchedState) (uri : String) (id : Nat) :
    Decidable (TimerLive s uri id) := by
  unfold TimerLive; infer_instance

/-- A timer firing (the `setTimeout` callback, lines 236-239): possible only
for a live timer; the callback deletes the URI's `pendingValidations`
entry. -/
def fireTimer (s : SchedState) (uri : String) (id : Nat) : SchedState :=
  if TimerLive s uri id then
    { s with pending := removeUri s.pending uri, fired := id :: s.fired }
  else s

/-- An event on the scheduler: a buffer open/change (both call
`scheduleValidation`, lines 106 and 121) or a timer firing. -/
inductive SchedEvent where
  | edit : String → SchedEvent
  | fire : String → Nat → SchedEvent
deriving DecidableEq, Repr

def applySchedEvent (s : SchedState) : SchedEvent → SchedState
  | SchedEvent.edit uri => scheduleValidation s uri
  | SchedEvent.fire uri id => fireTimer s uri id

/-- The scheduler state after a sequence of events from server start. -/
def runSched (es : List SchedEvent) : SchedState :=
  es.foldl applySchedEvent SchedState.init

/-- Scheduler invariant: every live timer is the one in
`pendingValidations`; the pending timer is the most recently created one for
its URI; created ids are below the id counter. -/
def SchedInv (s : SchedState) : Prop :=
  (∀ uri id, TimerLive s uri id → lookupTimer s.pending uri = some id) ∧
  (∀ uri id, lookupTimer s.pending uri = some id →
    (uri, id) ∈ s.created ∧ ∀ id', (uri, id') ∈ s.created → id' ≤ id) ∧
  (∀ uri id, (uri, id) ∈ s.created → id < s.nextId)

theorem lookupTimer_cons_self (m : List (String × Nat)) (uri : String)
    (id : Nat) : lookupTimer ((uri, id) :: m) uri = some id := by
  simp [lookupTimer, List.find?_cons]

theorem lookupTimer_cons_ne (m : List (String × Nat)) (uri u : String)
    (id : Nat) (h : u ≠ uri) :
    lookupTimer ((uri, id) :: m) u = lookupTimer m u := by
  have h' : uri ≠ u := Ne.symm h
  simp [lookupTimer, List.find?_cons, h']

theorem find?_removeUri_self (m : List (String × Nat)) (uri : String) :
    List.find? (fun p => decide (p.1 = uri)) (removeUri m uri) = none := by
  induction m with
  | nil => rfl
  | cons a t ih =>
      by_cases ha : a.1 = uri
      · rw [removeUri, List.filter_cons_of_neg (by simp [ha])]
        exact ih
      · rw [removeUri, List.filter_cons_of_pos (by simp [ha]),
          List.find?_cons_of_neg _ (by simp [ha])]
        exact ih

theorem lookupTimer_removeUri_self (m : List (String × Nat)) (uri : String) :
    lookupTimer (removeUri m uri) uri = none := by
  unfold lookupTimer
  rw [find?_removeUri_self]
  rfl

theorem find?_removeUri_ne (m : List (String × Nat)) (uri u : String)
    (h : u ≠ uri) :
    List.find? (fun p => decide (p.1 = u)) (removeUri m uri) =
      List.find? (fun p => decide (p.1 = u)) m := by
  induction m with
  | nil => rfl
  | cons a t ih =>
      by_cases huri : a.1 = uri
      · have hau : ¬ a.1 = u := by rw [huri]; exact Ne.symm h
        rw [removeUri, List.filter_cons_of_neg (by simp [huri]),
          List.find?_cons_of_neg _ (by simp [hau])]
        exact ih
      · rw [removeUri, List.filter_cons_of_pos (by simp [huri])]
        by_cases hau : a.1 = u
        · rw [List.find?_cons_of_pos _ (by simp [hau]),
            List.find?_cons_of_pos _ (by simp [hau])]
        · rw [List.find?_cons_of_neg _ (by simp [hau]),
            List.find?_cons_of_neg _ (by simp [hau])]
          exact ih

theorem lookupTimer_removeUri_ne (m : List (String × Nat)) (uri u : String)
    (h : u ≠ uri) : lookupTimer (removeUri m uri) u = lookupTimer m u := by
  unfold lookupTimer
  rw [find?_removeUri_ne _ _ _ h]

theorem lookupTimer_setTimer_self (m : List (String × Nat)) (uri : String)
    (id : Nat) : lookupTimer (setTimer m uri id) uri = some id :=
  lookupTimer_cons_self _ _ _

theorem lookupTimer_setTimer_ne (m : List (String × Nat)) (uri u : String)
    (id : Nat) (h : u ≠ uri) :
    lookupTimer (setTimer m uri id) u = lookupTimer m u := by
  rw [setTimer, lookupTimer_cons_ne _ _ _ _ h, lookupTimer_removeUri_ne _ _ _ h]

theorem cancelled_subset_schedule (s : SchedState) (uri : String) :
    s.cancelled ⊆ (scheduleValidation s uri).cancelled := by
  intro x hx
  unfold scheduleValidation
  cases hl : lookupTimer s.pending uri <;> simp [hl, hx]

theorem schedInv_init : SchedInv SchedState.init := by
  refine ⟨?_, ?_, ?_⟩ <;> intro uri id h
  · exact absurd h.1 (by simp [SchedState.init])
  · exact absurd h (by simp [SchedState.init, lookupTimer])
  · exact absurd h (by simp [SchedState.init])

theorem schedInv_schedule (s : SchedState) (uri : String) (h : SchedInv s) :
    SchedInv (scheduleValidation s uri) := by
  obtain ⟨h1, h2, h3⟩ := h
  refine ⟨?_, ?_, ?_⟩
  · rintro u id ⟨hc, hnc, hnf⟩
    rcases List.mem_cons.mp hc with heq | hmem
    · injection heq with hu hid
      subst hu; subst hid
      exact lookupTimer_setTimer_self _ _ _
    · have hnc' : id ∉ s.cancelled :=
        fun hx => hnc (cancelled_subset_schedule s uri hx)
      by_cases hu : u = uri
      · subst hu
        have hlive : TimerLive s u id := ⟨hmem, hnc', hnf⟩
        have hlk := h1 u id hlive
        exfalso
        apply hnc
        show id ∈ (scheduleValidation s u).cancelled
        simp [scheduleValidation, hlk]
      · have hlive : TimerLive s u id := ⟨hmem, hnc', hnf⟩
        have hlk := h1 u id hlive
        show lookupTimer (setTimer s.pending uri s.nextId) u = some id
        rw [lookupTimer_setTimer_ne _ _ _ _ hu]
        exact hlk
  · intro u id hl
    by_cases hu : u = uri
    · subst hu
      have hself : lookupTimer (setTimer s.pending u s.nextId) u =
          some s.nextId := lookupTimer_setTimer_self _ _ _
      have hid : id = s.nextId := Option.some_inj.mp (hl.symm.trans hself)
      subst hid
      refine ⟨List.mem_cons_self _ _, ?_⟩
      intro id' hc'
      rcases List.mem_cons.mp hc' with heq | hmem
      · injection heq with hu' hid'
        omega
      · exact Nat.le_of_lt (h3 u id' hmem)
    · have hl' : lookupTimer s.pending u = some id := by
        have hpend : (scheduleValidation s uri).pending =
            setTimer s.pending uri s.nextId := rfl
        rw [hpend, lookupTimer_setTimer_ne _ _ _ _ hu] at hl
        exact hl
      obtain ⟨hmem, hmax⟩ := h2 u id hl'
      refine ⟨List.mem_cons_of_mem _ hmem, ?_⟩
      intro id' hc'
      rcases List.mem_cons.mp hc' with heq | hmem'
      · injection heq with hu' hid'
        exact absurd hu' hu
      · exact hmax id' hmem'
  · intro u id hc
    rcases List.mem_cons.mp hc with heq | hmem
    · injection heq with hu hid
      show id < s.nextId + 1
      omega
    · have := h3 u id hmem
      show id < s.nextId + 1
      omega

theorem schedInv_fire (s : SchedState) (uri : String) (id0 : Nat)
    (h : SchedInv s) : SchedInv (fireTimer s uri id0) := by
  obtain ⟨h1, h2, h3⟩ := h
  by_cases hfire : TimerLive s uri id0
  · have hft : fireTimer s uri id0 =
        { s with pending := removeUri s.pending uri, fired := id0 :: s.fired } := by
      unfold fireTimer
      rw [if_pos hfire]
    rw [hft]
    refine ⟨?_, ?_, ?_⟩
    · rintro u id ⟨hc, hnc, hnf⟩
      have hne : id ≠ id0 := fun he => hnf (he ▸ List.mem_cons_self _ _)
      have hnf' : id ∉ s.fired := fun hx => hnf (List.mem_cons_of_mem _ hx)
      have hlive : TimerLive s u id := ⟨hc, hnc, hnf'⟩
      have hlk := h1 u id hlive
      by_cases hu : u = uri
      · subst hu
        have hlk0 := h1 u id0 hfire
        exact absurd (Option.some_inj.mp (hlk.symm.trans hlk0)) hne
      · show lookupTimer (removeUri s.pending uri) u = some id
        rw [lookupTimer_removeUri_ne _ _ _ hu]
        exact hlk
    · intro u id hl
      by_cases hu : u = uri
      · subst hu
        have hnone : lookupTimer (removeUri s.pending u) u = none :=
          lookupTimer_removeUri_self _ _
        have : (some id : Option Nat) = none := hl.symm.trans hnone
        exact absurd this (by simp)
      · have hl' : lookupTimer s.pending u = some id := by
          have hred : lookupTimer (removeUri s.pending uri) u = some id := hl
          rwa [lookupTimer_removeUri_ne _ _ _ hu] at hred
        exact h2 u id hl'
    · exact h3
  · have hft : fireTimer s uri id0 = s := by
      unfold fireTimer
      rw [if_neg hfire]
    rw [hft]
    exact ⟨h1, h2, h3⟩

theorem schedInv_run (es : List SchedEvent) : SchedInv (runSched es) := by
  have hstep : ∀ (t : List SchedEvent) (s : SchedState), SchedInv s →
      SchedInv (t.foldl applySchedEvent s) := by
    intro t
    induction t with
    | nil => intro s hs; exact hs
    | cons e t ih =>
        intro s hs
        cases e with
        | edit uri => exact ih _ (schedInv_schedule s uri hs)
        | fire uri id => exact ih _ (schedInv_fire s uri id hs)
  exact hstep es SchedState.init schedInv_init

/-- C3: after any sequence of open/change events and timer firings, (a) at
most one live (pending) debounce timer exists per buffer URI, (b) a live
timer for a URI is the most recently created timer for that URI — so only
the timer scheduled by the most recent event for the URI can ever fire —
and (c) each call to `scheduleValidation` cancels the previously pending
timer for its URI before registering a new one. -/
theorem C3_debounce (es : List SchedEvent) :
    (∀ uri id₁ id₂, TimerLive (runSched es) uri id₁ →
      TimerLive (runSched es) uri id₂ → id₁ = id₂) ∧
    (∀ uri id, TimerLive (runSched es) uri id →
      ∀ id', (uri, id') ∈ (runSched es).created → id' ≤ id) ∧
    (∀ (s : SchedState) (uri : String) (id : Nat),
      lookupTimer s.pending uri = some id →
      id ∈ (scheduleValidation s uri).cancelled) := by
  obtain ⟨h1, h2, _⟩ := schedInv_run es
  refine ⟨?_, ?_, ?_⟩
  · intro uri id₁ id₂ hl₁ hl₂
    have e₁ := h1 uri id₁ hl₁
    have e₂ := h1 uri id₂ hl₂
    exact Option.some_inj.mp (e₁.symm.trans e₂)
  · intro uri id hl id' hc'
    exact (h2 uri id (h1 uri id hl)).2 id' hc'
  · intro s uri id hl
    simp [scheduleValidation, hl]

/-- Witness for `C3_debounce` on the event sequence
`[edit "a", edit "a"]`: the second edit's timer (id 1) is live, the first
edit's timer (id 0) was created earlier and is bounded by it, and the first
edit's pending timer is cancelled by the second call. -/
theorem C3_debounce_witness :
    (TimerLive (runSched [SchedEvent.edit "a", SchedEvent.edit "a"]) "a" 1 ∧
      ("a", 0) ∈ (runSched [SchedEvent.edit "a", SchedEvent.edit "a"]).created ∧
      (0 : Nat) ≤ 1) ∧
    (lookupTimer (runSched [SchedEvent.edit "a"]).pending "a" = some 0 ∧
      0 ∈ (scheduleValidation (runSched [SchedEvent.edit "a"]) "a").cancelled) :=
  ⟨⟨by decide, by decide,
      (C3_debounce [SchedEvent.edit "a", SchedEvent.edit "a"]).2.1 "a" 1
        (by decide) 0 (by decide)⟩,
    ⟨by decide,
      (C3_debounce []).2.2 (runSched [SchedEvent.edit "a"]) "a" 0 (by decide)⟩⟩

/-! ## Model-completion cache (`getModelCompletions`, lines 1021-1043, and
`onDidChangeTextDocument`, lines 109-122)

`modelCache` maps a buffer URI to the completion items derived from the
compiler's structural model at a given document version.  A completion
request reuses the entry when its version equals the document's version and
otherwise rebuilds through the Bridge; every change notification bumps the
document version and deletes the cache entry eagerly.  Completion items are
abstracted to opaque labels; the Bridge round trip of `generateModelJson`
(resolve jar, dispatch `-generate JsonMixed`, extract and parse the JSON) is
an oracle `bridge` returning `none` when the dispatch throws or the output
holds no parseable model (either way the items fall back to `[]`,
lines 1029-1039).
-/

/-- Association-list lookup, `map.get(uri)`. -/
def alookup {α : Type} (m : List (String × α)) (uri : String) : Option α :=
  (m.find? (fun p => decide (p.1 = uri))).map Prod.snd

/-- Association-list removal, `map.delete(uri)`. -/
def aremove {α : Type} (m : List (String × α)) (uri : String) :
    List (String × α) :=
  m.filter (fun p => !(decide (p.1 = uri)))

/-- Association-list update, `map.set(uri, v)`. -/
def aset {α : Type} (m : List (String × α)) (uri : String) (v : α) :
    List (String × α) :=
  (uri, v) :: aremove m uri

theorem alookup_aset_self {α : Type} (m : List (String × α)) (uri : String)
    (v : α) : alookup (aset m uri v) uri = some v := by
  simp [alookup, aset, List.find?_cons]

theorem alookup_aremove_self {α : Type} (m : List (String × α))
    (uri : String) : alookup (aremove m uri) uri = none := by
  induction m with
  | nil => rfl
  | cons a t ih =>
      by_cases ha : a.1 = uri
      · rw [aremove, List.filter_cons_of_neg (by simp [ha])]
        exact ih
      · rw [aremove, List.filter_cons_of_pos (by simp [ha]),
          alookup, List.find?_cons_of_neg _ (by simp [ha])]
        exact ih

/-- Server state relevant to the model cache: the document store
(URI → version; text is irrelevant here) and `modelCache`
(URI → (version, items)). -/
structure CacheState where
  documents : List (String × Nat)
  modelCache : List (String × (Nat × List String))
deriving DecidableEq, Repr

/-- The cache-miss path of `getModelCompletions` (lines 1029-1041): when the
jar is configured the Bridge is dispatched (`generateModelJson`, an external
dispatch), any failure falls back to `[]`, and the entry is cached at the
requested version either way; when the jar is missing no dispatch happens
and `[]` is cached.  Returns (items, dispatched?, new state). -/
def rebuildModel (jarOk : Bool) (bridge : String → Nat → Option (List String))
    (s : CacheState) (uri : String) (version : Nat) :
    List String × Bool × CacheState :=
  let items := if jarOk then (bridge uri version).getD [] else []
  (items, jarOk,
    { s with modelCache := aset s.modelCache uri (version, items) })

/-- `getModelCompletions` (lines 1021-1043): answer from the cache when the
cached version equals the document's current version, otherwise rebuild via
the Bridge and cache the result. -/
def getModelCompletions (jarOk : Bool)
    (bridge : String → Nat → Option (List String)) (s : CacheState)
    (uri : String) (version : Nat) : List String × Bool × CacheState :=
  match alookup s.modelCache uri with
  | some (v, items) =>
      if v = version then (items, false, s)
      else rebuildModel jarOk bridge s uri version
  | none => rebuildModel jarOk bridge s uri version

/-- `onDidChangeTextDocument` (lines 109-122): ignore changes for unknown
buffers; otherwise store the updated document version and delete the
buffer's model-cache entry eagerly.  (The call also schedules a debounced
validation, covered by the scheduler model above.) -/
def onDidChangeTextDocument (s : CacheState) (uri : String) (version : Nat) :
    CacheState :=
  match alookup s.documents uri with
  | none => s
  | some _ =>
      { documents := aset s.documents uri version
        modelCache := aremove s.modelCache uri }

/-- C4: (a) two completion requests for the same URI at the same document
version, with no intervening edit, answer the second from the cache — no
second external dispatch, same items; (b) a change event for an open buffer
deletes that buffer's model-cache entry eagerly; (c) hence the next
completion request after the change (at the new version, with the jar
configured) rebuilds via the Bridge. -/
theorem C4_model_cache :
    (∀ (jarOk : Bool) (bridge : String → Nat → Option (List String))
       (s : CacheState) (uri : String) (version : Nat),
      (getModelCompletions jarOk bridge
        (getModelCompletions jarOk bridge s uri version).2.2 uri
        version).2.1 = false ∧
      (getModelCompletions jarOk bridge
        (getModelCompletions jarOk bridge s uri version).2.2 uri
        version).1 =
        (getModelCompletions jarOk bridge s uri version).1) ∧
    (∀ (s : CacheState) (uri : String) (version v0 : Nat),
      alookup s.documents uri = some v0 →
      alookup (onDidChangeTextDocument s uri version).modelCache uri = none) ∧
    (∀ (bridge : String → Nat → Option (List String)) (s : CacheState)
       (uri : String) (version v0 version' : Nat),
      alookup s.documents uri = some v0 →
      (getModelCompletions true bridge (onDidChangeTextDocument s uri version)
        uri version').2.1 = true) := by
  refine ⟨?_, ?_, ?_⟩
  · intro jarOk bridge s uri version
    match h : alookup s.modelCache uri with
    | some (v, items) =>
        by_cases hv : v = version
        · simp [getModelCompletions, h, hv]
        · simp only [getModelCompletions, h, if_neg hv, rebuildModel]
          rw [alookup_aset_self]
          simp
    | none =>
        simp only [getModelCompletions, h, rebuildModel]
        rw [alookup_aset_self]
        simp
  · intro s uri version v0 hdoc
    simp [onDidChangeTextDocument, hdoc, alookup_aremove_self]
  · intro bridge s uri version v0 version' hdoc
    have hnone : alookup (onDidChangeTextDocument s uri version).modelCache
        uri = none := by
      simp [onDidChangeTextDocument, hdoc, alookup_aremove_self]
    simp [getModelCompletions, hnone, rebuildModel]

/-- Witness for `C4_model_cache` on the one-document state
`documents = [("file:///a.ump", 7)]`: the change to version 8 empties the
cache entry and the next request dispatches. -/
theorem C4_model_cache_witness :
    alookup (CacheState.mk [("file:///a.ump", 7)]
      [("file:///a.ump", (7, ["X"]))]).documents "file:///a.ump" = some 7 ∧
    alookup (onDidChangeTextDocument
      (CacheState.mk [("file:///a.ump", 7)] [("file:///a.ump", (7, ["X"]))])
      "file:///a.ump" 8).modelCache "file:///a.ump" = none ∧
    (getModelCompletions true (fun _ _ => some ["Y"])
      (onDidChangeTextDocument
        (CacheState.mk [("file:///a.ump", 7)] [("file:///a.ump", (7, ["X"]))])
        "file:///a.ump" 8) "file:///a.ump" 8).2.1 = true :=
  ⟨by decide,
    C4_model_cache.2.1
      (CacheState.mk [("file:///a.ump", 7)] [("file:///a.ump", (7, ["X"]))])
      "file:///a.ump" 8 7 (by decide),
    C4_model_cache.2.2 (fun _ _ => some ["Y"])
      (CacheState.mk [("file:///a.ump", 7)] [("file:///a.ump", (7, ["X"]))])
      "file:///a.ump" 8 7 8 (by decide)⟩

/-! ## Bridge dispatch and retry (`sendUmpleSyncCommand`, lines 329-358)

`connectAndSend` performs one socket round trip; it is modelled as an oracle
`conn : Nat → ConnOutcome` giving the outcome of the `k`-th attempt of the
command (attempt 0 is the initial try, attempts 1-5 the retries).  A
JavaScript error is modelled by its optional `code` property, the only part
`isConnectionError` inspects.

`startUmpleSyncServer` (lines 400-424): when `serverProcess` is already set
it returns `true` without spawning; otherwise it spawns the detached service
process, stores the handle in `serverProcess` and resolves `true` — the
executor runs synchronously after `spawn`, so the handle is stored and the
promise resolved before any asynchronous `error` event can be delivered
(the event only logs, and its `resolve(false)` is a no-op on the settled
promise).  The model returns (spawned-now?, serverProcess-after).
-/

structure JsError where
  code : Option String
deriving DecidableEq, Repr

/-- `isConnectionError` (lines 452-462): code is `ECONNREFUSED`,
`ECONNRESET` or `EPIPE`. -/
def isConnectionError (e : JsError) : Bool :=
  decide (e.code = some "ECONNREFUSED") ||
  decide (e.code = some "ECONNRESET") ||
  decide (e.code = some "EPIPE")

inductive ConnOutcome where
  | ok : String → String → ConnOutcome
  | err : JsError → ConnOutcome
deriving DecidableEq, Repr

/-- `startUmpleSyncServer` (lines 400-424), see the section comment. -/
def startUmpleSyncServer (serverProcess : Bool) : Bool × Bool :=
  if serverProcess then (false, true) else (true, true)

/-- The retry loop (lines 345-354): up to `n` further attempts starting at
attempt index `k`; a success returns it, a non-connection error is thrown
as-is, a connection error waits the fixed 150 ms delay and retries;
exhausting the attempts re-raises `orig`, the original connection error
(line 356).  Returns (outcome, attempts used, delays taken). -/
def retryAttempts (conn : Nat → ConnOutcome) (orig : JsError) :
    Nat → Nat → Except JsError (String × String) × Nat × Nat
  | 0, _ => (Except.error orig, 0, 0)
  | n + 1, k =>
      match conn k with
      | ConnOutcome.ok o e => (Except.ok (o, e), 1, 0)
      | ConnOutcome.err er =>
          if isConnectionError er then
            ((retryAttempts conn orig n (k + 1)).1,
             (retryAttempts conn orig n (k + 1)).2.1 + 1,
             (retryAttempts conn orig n (k + 1)).2.2 + 1)
          else (Except.error er, 1, 0)

/-- Trace of one `sendUmpleSyncCommand` call: its outcome, how many
`connectAndSend` attempts and fixed delays it made, whether it spawned the
service process, and the `serverProcess` flag afterwards. -/
structure SyncRun where
  result : Except JsError (String × String)
  attempts : Nat
  delays : Nat
  spawned : Bool
  serverAfter : Bool
deriving Repr

/-- `sendUmpleSyncCommand` (lines 329-358): try once; a non-connection error
propagates immediately; a connection error starts the service (at most once
per lifetime, guarded by `serverProcess`) and enters the retry loop. -/
def sendUmpleSyncCommand (conn : Nat → ConnOutcome) (serverProcess : Bool) :
    SyncRun :=
  match conn 0 with
  | ConnOutcome.ok o e =>
      { result := Except.ok (o, e), attempts := 1, delays := 0,
        spawned := false, serverAfter := serverProcess }
  | ConnOutcome.err er =>
      if isConnectionError er then
        let st := startUmpleSyncServer serverProcess
        let r := retryAttempts conn er 5 1
        { result := r.1, attempts := r.2.1 + 1, delays := r.2.2,
          spawned := st.1, serverAfter := st.2 }
      else
        { result := Except.error er, attempts := 1, delays := 0,
          spawned := false, serverAfter := serverProcess }

/-- A sequence of commands over the server's lifetime, threading the
`serverProcess` flag; returns (number of spawns, final flag). -/
def runCommandsFrom (acc : Nat × Bool) :
    List (Nat → ConnOutcome) → Nat × Bool
  | [] => acc
  | conn :: rest =>
      let r := sendUmpleSyncCommand conn acc.2
      runCommandsFrom (acc.1 + (if r.spawned then 1 else 0), r.serverAfter) rest

def runCommands (conns : List (Nat → ConnOutcome)) : Nat × Bool :=
  runCommandsFrom (0, false) conns

theorem retryAttempts_le (conn : Nat → ConnOutcome) (orig : JsError)
    (n k : Nat) : (retryAttempts conn orig n k).2.1 ≤ n ∧
      (retryAttempts conn orig n k).2.2 ≤ n := by
  induction n generalizing k with
  | zero => exact ⟨Nat.le_refl 0, Nat.le_refl 0⟩
  | succ n ih =>
      unfold retryAttempts
      match hc : conn k with
      | ConnOutcome.ok o e => simp
      | ConnOutcome.err er =>
          by_cases he : isConnectionError er
          · obtain ⟨hr1, hr2⟩ := ih (k + 1)
            simp only [he, if_true]
            exact ⟨by omega, by omega⟩
          · simp [he]

theorem retryAttempts_all_fail (conn : Nat → ConnOutcome) (orig : JsError)
    (n k : Nat)
    (h : ∀ j, k ≤ j → j < k + n →
      ∃ ej, conn j = ConnOutcome.err ej ∧ isConnectionError ej = true) :
    (retryAttempts conn orig n k).1 = Except.error orig := by
  induction n generalizing k with
  | zero => rfl
  | succ n ih =>
      obtain ⟨ek, hek, hcek⟩ := h k (Nat.le_refl k) (by omega)
      have htail : ∀ j, k + 1 ≤ j → j < k + 1 + n →
          ∃ ej, conn j = ConnOutcome.err ej ∧ isConnectionError ej = true := by
        intro j h1 h2
        exact h j (by omega) (by omega)
      unfold retryAttempts
      rw [hek]
      simp only [hcek, if_true]
      exact ih (k + 1) htail

theorem sendCmd_spawn_cases (conn : Nat → ConnOutcome) (sp : Bool) :
    ((sendUmpleSyncCommand conn sp).spawned = true → sp = false) ∧
    (sp = true → (sendUmpleSyncCommand conn sp).serverAfter = true) ∧
    (sp = false → (sendUmpleSyncCommand conn sp).serverAfter =
      (sendUmpleSyncCommand conn sp).spawned) := by
  unfold sendUmpleSyncCommand
  match hc : conn 0 with
  | ConnOutcome.ok o e => cases sp <;> simp
  | ConnOutcome.err er =>
      by_cases he : isConnectionError er
      · cases sp <;> simp [he, startUmpleSyncServer]
      · cases sp <;> simp [he]

theorem runCommandsFrom_spawn_bound (conns : List (Nat → ConnOutcome)) :
    ∀ (n : Nat) (sp : Bool),
      (runCommandsFrom (n, sp) conns).1 ≤ n + (if sp then 0 else 1) := by
  induction conns with
  | nil => intro n sp; cases sp <;> simp [runCommandsFrom]
  | cons conn rest ih =>
      intro n sp
      obtain ⟨hsp1, hsp2, hsp3⟩ := sendCmd_spawn_cases conn sp
      have hstep : runCommandsFrom (n, sp) (conn :: rest) =
          runCommandsFrom
            (n + (if (sendUmpleSyncCommand conn sp).spawned then 1 else 0),
             (sendUmpleSyncCommand conn sp).serverAfter) rest := rfl
      rw [hstep]
      cases sp with
      | true =>
          have hns : (sendUmpleSyncCommand conn true).spawned = false := by
            cases hs : (sendUmpleSyncCommand conn true).spawned
            · rfl
            · exact absurd (hsp1 hs) (by simp)
          rw [hns, hsp2 rfl]
          simpa using ih n true
      | false =>
          have hafter := hsp3 rfl
          cases hs : (sendUmpleSyncCommand conn false).spawned with
          | true =>
              rw [hafter, hs]
              simpa using ih (n + 1) true
          | false =>
              rw [hafter, hs]
              simpa using ih n false

/-- C7: (a) a first attempt failing with a non-connection error propagates
immediately — one attempt, no delay, no spawn; (b) a first attempt failing
with a connection-class error spawns the service exactly when no process
handle exists yet, leaves the handle set, and makes at most 6 attempts in
total (the initial one plus up to 5 retries) with at most 5 fixed delays;
(c) when the first attempt and all 5 retries fail with connection-class
errors, the original connection error is re-raised; (d) across any sequence
of commands in one server lifetime, the service process is spawned at most
once. -/
theorem C7_sendUmpleSyncCommand :
    (∀ (conn : Nat → ConnOutcome) (sp : Bool) (e : JsError),
      conn 0 = ConnOutcome.err e → isConnectionError e = false →
      sendUmpleSyncCommand conn sp =
        { result := Except.error e, attempts := 1, delays := 0,
          spawned := false, serverAfter := sp }) ∧
    (∀ (conn : Nat → ConnOutcome) (sp : Bool) (e : JsError),
      conn 0 = ConnOutcome.err e → isConnectionError e = true →
      (sendUmpleSyncCommand conn sp).spawned = !sp ∧
      (sendUmpleSyncCommand conn sp).serverAfter = true ∧
      (sendUmpleSyncCommand conn sp).attempts ≤ 6 ∧
      (sendUmpleSyncCommand conn sp).delays ≤ 5) ∧
    (∀ (conn : Nat → ConnOutcome) (sp : Bool) (e : JsError),
      conn 0 = ConnOutcome.err e → isConnectionError e = true →
      (∀ k, 1 ≤ k → k ≤ 5 →
        ∃ ek, conn k = ConnOutcome.err ek ∧ isConnectionError ek = true) →
      (sendUmpleSyncCommand conn sp).result = Except.error e) ∧
    (∀ conns : List (Nat → ConnOutcome), (runCommands conns).1 ≤ 1) := by
  refine ⟨?_, ?_, ?_, ?_⟩
  · intro conn sp e h0 hne
    unfold sendUmpleSyncCommand
    rw [h0]
    simp [hne]
  · intro conn sp e h0 hce
    have hle := retryAttempts_le conn e 5 1
    unfold sendUmpleSyncCommand
    rw [h0]
    simp only [hce, if_true, startUmpleSyncServer]
    cases sp <;> simp <;> omega
  · intro conn sp e h0 hce hall
    have hfail : (retryAttempts conn e 5 1).1 = Except.error e := by
      apply retryAttempts_all_fail
      intro j h1 h2
      exact hall j h1 (by omega)
    unfold sendUmpleSyncCommand
    rw [h0]
    simp [hce, hfail]
  · intro conns
    have := runCommandsFrom_spawn_bound conns 0 false
    simpa [runCommands] using this

/-- Witness for `C7_sendUmpleSyncCommand`: a permanently refused connection
(code `ECONNREFUSED`) spawns the server once and re-raises the original
error after the retries; a type error (no `code`) propagates immediately
with a single attempt. -/
theorem C7_sendUmpleSyncCommand_witness :
    (sendUmpleSyncCommand
        (fun _ => ConnOutcome.err { code := some "ECONNREFUSED" })
        false).result = Except.error { code := some "ECONNREFUSED" } ∧
    (sendUmpleSyncCommand
        (fun _ => ConnOutcome.err { code := some "ECONNREFUSED" })
        false).spawned = !false ∧
    sendUmpleSyncCommand (fun _ => ConnOutcome.err { code := none }) true =
      { result := Except.error { code := none }, attempts := 1, delays := 0,
        spawned := false, serverAfter := true } :=
  ⟨C7_sendUmpleSyncCommand.2.2.1
      (fun _ => ConnOutcome.err { code := some "ECONNREFUSED" }) false
      { code := some "ECONNREFUSED" } rfl (by decide)
      (fun k _ _ => ⟨{ code := some "ECONNREFUSED" }, rfl, by decide⟩),
    (C7_sendUmpleSyncCommand.2.1
      (fun _ => ConnOutcome.err { code := some "ECONNREFUSED" }) false
      { code := some "ECONNREFUSED" } rfl (by decide)).1,
    C7_sendUmpleSyncCommand.1 (fun _ => ConnOutcome.err { code := none })
      true { code := none } rfl (by decide)⟩

/-! ## Definition-result mapping (`resolveDefinitionUri`, lines 577-621, and
the location construction of `onDefinition`, lines 205-222)

Paths are modelled as character lists under POSIX semantics for the
normalized absolute paths this code actually handles (paths produced by
`mkdtemp`, `path.join` and the workspace roots); the Node `path` builtins
`isAbsolute`, `basename`, `dirname`, `join` and `relative`, and
`pathToFileURL` (no percent-encoding for the plain ASCII paths considered),
are modelled below on such paths.
-/

/-- Split on `'/'`, auxiliary: first chunk and the remaining chunks. -/
def splitSlashA : List Char → List Char × List (List Char)
  | [] => ([], [])
  | c :: rest =>
      let r := splitSlashA rest
      if c = '/' then ([], r.1 :: r.2) else (c :: r.1, r.2)

/-- `s.split("/")`. -/
def splitOnSlash (cs : List Char) : List (List Char) :=
  (splitSlashA cs).1 :: (splitSlashA cs).2

/-- The nonempty `'/'`-separated components of a path. -/
def pathSegments (cs : List Char) : List (List Char) :=
  (splitOnSlash cs).filter (fun s => decide (s ≠ []))

/-- Join segments with `'/'` separators. -/
def joinSegs : List (List Char) → List Char
  | [] => []
  | [s] => s
  | s :: s' :: rest => s ++ '/' :: joinSegs (s' :: rest)

/-- Node `path.isAbsolute` (POSIX). -/
def pathIsAbsolute : List Char → Bool
  | '/' :: _ => true
  | _ => false

/-- Node `path.basename` for the normalized non-root paths handled here. -/
def pathBasename (cs : List Char) : List Char :=
  ((pathSegments cs).getLast?).getD cs

/-- Node `path.dirname` for the normalized paths handled here. -/
def pathDirname (cs : List Char) : List Char :=
  match (pathSegments cs).dropLast with
  | [] => if pathIsAbsolute cs then ['/'] else ['.']
  | segs => if pathIsAbsolute cs then '/' :: joinSegs segs else joinSegs segs

/-- Node `path.join(a, b)` for a normalized path `a` and relative `b`. -/
def pathJoin (a b : List Char) : List Char :=
  if b = [] then a else a ++ '/' :: b

/-- Drop the common leading segments of two segment lists. -/
def dropCommon : List (List Char) → List (List Char) →
    List (List Char) × List (List Char)
  | a :: as, b :: bs => if a = b then dropCommon as bs else (a :: as, b :: bs)
  | as, bs => (as, bs)

/-- Node `path.relative(f, t)` for normalized absolute POSIX paths: drop the
common prefix, climb with `".."` for each remaining segment of `f`, then
descend into the remaining segments of `t`. -/
def pathRelative (f t : List Char) : List Char :=
  joinSegs (List.replicate (dropCommon (pathSegments f) (pathSegments t)).1.length
    ['.', '.'] ++ (dropCommon (pathSegments f) (pathSegments t)).2)

/-- Node `url.pathToFileURL(...).toString()` for plain ASCII paths. -/
def pathToFileURL (p : List Char) : List Char :=
  "file://".data ++ p

/-- The parsed output of the external `UmpleGoToDefJson` lookup (TypeScript
type `GoToDefResult`, lines 490-497).  Strings are character lists. -/
structure GoToDefResult where
  found : Bool
  kind : Option (List Char) := none
  name : Option (List Char) := none
  file : Option (List Char) := none
  line : Option Int := none
  col : Option Int := none

/-- `resolveDefinitionUri` (lines 577-621): map the lookup result's file
path back to an editor URI.

* an absent or blank `file` resolves to the document's own path; a relative
  one resolves against the document's directory (lines 589-597);
* a result equal to the temp file, sharing the temp file's basename, or
  equal to the document's path answers with the document's URI
  (lines 603-610);
* a result inside the shadow root (its path relative to the shadow root
  neither starts with `".."` nor is absolute) is rewritten to the same
  relative path under the workspace root (lines 612-618);
* anything else becomes a plain `file://` URL (line 620). -/
def resolveDefinitionUri (d : GoToDefResult) (docUri : List Char)
    (docPath : Option (List Char)) (tempFile : List Char)
    (shadowRoot workspaceRoot : Option (List Char)) : List Char :=
  let docDir : Option (List Char) := docPath.map pathDirname
  let rawFile : Option (List Char) := d.file.map jsTrim
  let resolvedPath : Option (List Char) :=
    match rawFile with
    | none => docPath
    | some rf =>
        if rf = [] then docPath
        else if pathIsAbsolute rf then some rf
        else
          match docDir with
          | some dd => some (pathJoin dd rf)
          | none => some rf
  match resolvedPath with
  | none => docUri
  | some rp =>
      if rp = tempFile ∨ pathBasename rp = pathBasename tempFile then docUri
      else if docPath = some rp then docUri
      else
        match shadowRoot, workspaceRoot with
        | some sr, some wr =>
            if !(("..".data).isPrefixOf (pathRelative sr rp)) &&
                !(pathIsAbsolute (pathRelative sr rp)) then
              pathToFileURL (pathJoin wr (pathRelative sr rp))
            else pathToFileURL rp
        | _, _ => pathToFileURL rp

structure LocationM where
  uri : List Char
  startLine : Int
  startChar : Int
  endLine : Int
  endChar : Int

/-- The `Location` built by `onDefinition` for a found lookup result
(lines 205-222): the resolved URI and the result's 1-based line and column
converted to 0-based, clamped at 0, as a zero-width range. -/
def onDefinitionLocation (d : GoToDefResult) (docUri : List Char)
    (docPath : Option (List Char)) (tempFile : List Char)
    (shadowRoot workspaceRoot : Option (List Char)) : LocationM :=
  { uri := resolveDefinitionUri d docUri docPath tempFile shadowRoot
      workspaceRoot
    startLine := max ((d.line.getD 1) - 1) 0
    startChar := max ((d.col.getD 1) - 1) 0
    endLine := max ((d.line.getD 1) - 1) 0
    endChar := max ((d.col.getD 1) - 1) 0 }

/-- A well-formed path segment: nonempty, without separators or
whitespace. -/
def GoodSeg (s : List Char) : Prop :=
  s ≠ [] ∧ ∀ c ∈ s, c ≠ '/' ∧ c.isWhitespace = false

instance (s : List Char) : Decidable (GoodSeg s) := by
  unfold GoodSeg; infer_instance

theorem jsTrim_eq_self (cs : List Char)
    (h : ∀ c ∈ cs, c.isWhitespace = false) : jsTrim cs = cs := by
  have hdrop : ∀ (l : List Char), (∀ c ∈ l, c.isWhitespace = false) →
      l.dropWhile Char.isWhitespace = l := by
    intro l hl
    cases l with
    | nil => rfl
    | cons c rest =>
        rw [List.dropWhile_cons]
        simp [hl c (List.mem_cons_self c rest)]
  unfold jsTrim
  rw [hdrop cs h, hdrop cs.reverse (fun c hc => h c (List.mem_reverse.mp hc)),
    List.reverse_reverse]

theorem splitSlashA_append (xs ys : List Char) :
    splitSlashA (xs ++ '/' :: ys) =
      ((splitSlashA xs).1,
       (splitSlashA xs).2 ++ (splitSlashA ys).1 :: (splitSlashA ys).2) := by
  induction xs with
  | nil => simp [splitSlashA]
  | cons c rest ih =>
      by_cases hc : c = '/'
      · subst hc
        simp [splitSlashA, ih]
      · simp [splitSlashA, hc, ih]

theorem splitOnSlash_append (xs ys : List Char) :
    splitOnSlash (xs ++ '/' :: ys) = splitOnSlash xs ++ splitOnSlash ys := by
  unfold splitOnSlash
  rw [splitSlashA_append]
  simp

theorem splitSlashA_no_slash (s : List Char) (h : ∀ c ∈ s, c ≠ '/') :
    splitSlashA s = (s, []) := by
  induction s with
  | nil => rfl
  | cons c rest ih =>
      have hc := h c (List.mem_cons_self c rest)
      simp [splitSlashA, hc,
        ih (fun c' hc' => h c' (List.mem_cons_of_mem _ hc'))]

theorem splitOnSlash_no_slash (s : List Char) (h : ∀ c ∈ s, c ≠ '/') :
    splitOnSlash s = [s] := by
  unfold splitOnSlash
  rw [splitSlashA_no_slash s h]

theorem splitOnSlash_cons_slash (cs : List Char) :
    splitOnSlash ('/' :: cs) = [] :: splitOnSlash cs := by
  unfold splitOnSlash
  simp [splitSlashA]

theorem pathSegments_joinSegs (segs : List (List Char))
    (h : ∀ s ∈ segs, GoodSeg s) : pathSegments (joinSegs segs) = segs := by
  induction segs with
  | nil => rfl
  | cons s rest ih =>
      obtain ⟨hne, hchars⟩ := h s (List.mem_cons_self s rest)
      cases rest with
      | nil =>
          unfold pathSegments
          rw [show joinSegs [s] = s from rfl,
            splitOnSlash_no_slash s (fun c hc => (hchars c hc).1)]
          simp [hne]
      | cons s' rest' =>
          have hjoin : joinSegs (s :: s' :: rest') =
              s ++ '/' :: joinSegs (s' :: rest') := rfl
          unfold pathSegments
          rw [hjoin, splitOnSlash_append,
            splitOnSlash_no_slash s (fun c hc => (hchars c hc).1),
            List.filter_append]
          have hs : List.filter (fun t => decide (t ≠ [])) [s] = [s] := by
            simp [hne]
          rw [hs]
          have ih' := ih (fun t ht => h t (List.mem_cons_of_mem _ ht))
          unfold pathSegments at ih'
          rw [ih']
          rfl

theorem pathSegments_abs (segs : List (List Char))
    (h : ∀ s ∈ segs, GoodSeg s) :
    pathSegments ('/' :: joinSegs segs) = segs := by
  unfold pathSegments
  rw [splitOnSlash_cons_slash, List.filter_cons_of_neg (by simp)]
  have hrest := pathSegments_joinSegs segs h
  unfold pathSegments at hrest
  exact hrest

theorem dropCommon_self_append (a b : List (List Char)) :
    dropCommon a (a ++ b) = ([], b) := by
  induction a with
  | nil => cases b <;> rfl
  | cons x a' ih => simp [dropCommon, ih]

theorem pathRelative_inside (srSegs relSegs : List (List Char))
    (hsr : ∀ s ∈ srSegs, GoodSeg s) (hrel : ∀ s ∈ relSegs, GoodSeg s) :
    pathRelative ('/' :: joinSegs srSegs)
      ('/' :: joinSegs (srSegs ++ relSegs)) = joinSegs relSegs := by
  have hall : ∀ s ∈ srSegs ++ relSegs, GoodSeg s := by
    intro s hs
    rcases List.mem_append.mp hs with h1 | h2
    · exact hsr s h1
    · exact hrel s h2
  unfold pathRelative
  rw [pathSegments_abs srSegs hsr, pathSegments_abs (srSegs ++ relSegs) hall,
    dropCommon_self_append]
  simp

theorem mem_joinSegs {c : Char} : ∀ (segs : List (List Char)),
    c ∈ joinSegs segs → c = '/' ∨ ∃ s ∈ segs, c ∈ s
  | [] => by simp [joinSegs]
  | [s] => by
      intro h
      exact Or.inr ⟨s, List.mem_cons_self s [], h⟩
  | s :: s' :: rest => by
      intro h
      rw [show joinSegs (s :: s' :: rest) = s ++ '/' :: joinSegs (s' :: rest)
        from rfl] at h
      rcases List.mem_append.mp h with h1 | h2
      · exact Or.inr ⟨s, List.mem_cons_self s _, h1⟩
      · rcases List.mem_cons.mp h2 with h3 | h4
        · exact Or.inl h3
        · rcases mem_joinSegs (s' :: rest) h4 with h5 | ⟨t, ht, hc⟩
          · exact Or.inl h5
          · exact Or.inr ⟨t, List.mem_cons_of_mem _ ht, hc⟩

theorem pathIsAbsolute_joinSegs (s : List Char) (rest : List (List Char))
    (hs : s ≠ []) (h : ∀ c ∈ s, c ≠ '/') :
    pathIsAbsolute (joinSegs (s :: rest)) = false := by
  cases s with
  | nil => exact absurd rfl hs
  | cons c cs =>
      have hc : c ≠ '/' := h c (List.mem_cons_self c cs)
      cases rest with
      | nil => simp [joinSegs, pathIsAbsolute, hc]
      | cons s' r =>
          rw [show joinSegs ((c :: cs) :: s' :: r) =
            c :: (cs ++ '/' :: joinSegs (s' :: r)) from rfl]
          simp [pathIsAbsolute, hc]

/-- C6 counterexample: the lookup result `/tmp/shadow/sub/B.ump` lies inside
the shadow root `/tmp/shadow` and is a different file from the requesting
buffer's shadow copy `/tmp/shadow/B.ump`, yet `resolveDefinitionUri`
answers with the buffer's own URI instead of the rewritten
`file:///ws/sub/B.ump`, because it bails out whenever the result's basename
equals the temp/shadow file's basename (line 605). -/
theorem C6_resolveDefinitionUri_counterexample :
    pathRelative "/tmp/shadow".data "/tmp/shadow/sub/B.ump".data =
      "sub/B.ump".data ∧
    "/tmp/shadow/sub/B.ump".data ≠ "/tmp/shadow/B.ump".data ∧
    "/tmp/shadow/sub/B.ump".data ≠ "/ws/B.ump".data ∧
    resolveDefinitionUri
      { found := true, file := some "/tmp/shadow/sub/B.ump".data,
        line := some 3, col := some 4 }
      "file:///ws/B.ump".data (some "/ws/B.ump".data)
      "/tmp/shadow/B.ump".data (some "/tmp/shadow".data)
      (some "/ws".data) = "file:///ws/B.ump".data ∧
    "file:///ws/B.ump".data ≠ "file:///ws/sub/B.ump".data := by
  refine ⟨by decide, by decide, by decide, by decide, by decide⟩

/-- C6 as amended: for every found definition result whose returned file
path lies inside the shadow root (a well-formed segment path under it, not
starting with `".."`), whose basename differs from the requesting buffer's
temp/shadow file's basename, and which is not the buffer's own real path,
`onDefinition` returns a `Location` whose URI is the shadow-relative path
rewritten onto the workspace root, with the result's 1-based line and
column each decremented and clamped at 0, as a zero-width range. -/
theorem C6_resolveDefinitionUri_amended
    (srSegs relSegs : List (List Char)) (wr : List Char)
    (hsr : ∀ s ∈ srSegs, GoodSeg s) (hrel : ∀ s ∈ relSegs, GoodSeg s)
    (hrelne : relSegs ≠ [])
    (hdots : ("..".data).isPrefixOf (joinSegs relSegs) = false)
    (d : GoToDefResult) (docUri : List Char) (docPath : Option (List Char))
    (tempFile : List Char)
    (_hfound : d.found = true)
    (hfile : d.file = some ('/' :: joinSegs (srSegs ++ relSegs)))
    (hbase : pathBasename ('/' :: joinSegs (srSegs ++ relSegs)) ≠
      pathBasename tempFile)
    (hdoc : docPath ≠ some ('/' :: joinSegs (srSegs ++ relSegs))) :
    onDefinitionLocation d docUri docPath tempFile
        (some ('/' :: joinSegs srSegs)) (some wr) =
      { uri := pathToFileURL (pathJoin wr (joinSegs relSegs))
        startLine := max ((d.line.getD 1) - 1) 0
        startChar := max ((d.col.getD 1) - 1) 0
        endLine := max ((d.line.getD 1) - 1) 0
        endChar := max ((d.col.getD 1) - 1) 0 } := by
  have hws : ∀ c ∈ ('/' :: joinSegs (srSegs ++ relSegs)),
      c.isWhitespace = false := by
    intro c hc
    rcases List.mem_cons.mp hc with h1 | h2
    · subst h1; decide
    · rcases mem_joinSegs _ h2 with h3 | ⟨s, hs, hcs⟩
      · subst h3; decide
      · rcases List.mem_append.mp hs with h4 | h4
        · exact ((hsr s h4).2 c hcs).2
        · exact ((hrel s h4).2 c hcs).2
  have htrim : jsTrim ('/' :: joinSegs (srSegs ++ relSegs)) =
      '/' :: joinSegs (srSegs ++ relSegs) := jsTrim_eq_self _ hws
  have habs : pathIsAbsolute ('/' :: joinSegs (srSegs ++ relSegs)) = true := by
    simp [pathIsAbsolute]
  have hrelat : pathRelative ('/' :: joinSegs srSegs)
      ('/' :: joinSegs (srSegs ++ relSegs)) = joinSegs relSegs :=
    pathRelative_inside srSegs relSegs hsr hrel
  have hrelabs : pathIsAbsolute (joinSegs relSegs) = false := by
    cases relSegs with
    | nil => exact absurd rfl hrelne
    | cons s rest =>
        exact pathIsAbsolute_joinSegs s rest (hrel s (List.mem_cons_self s rest)).1
          (fun c hc => ((hrel s (List.mem_cons_self s rest)).2 c hc).1)
  have hcond : ¬ ('/' :: joinSegs (srSegs ++ relSegs) = tempFile ∨
      pathBasename ('/' :: joinSegs (srSegs ++ relSegs)) =
        pathBasename tempFile) := by
    rintro (he | hb)
    · exact hbase (by rw [he])
    · exact hbase hb
  have hdots' : (['.', '.'] : List Char).isPrefixOf (joinSegs relSegs) =
      false := hdots
  have hresolve : resolveDefinitionUri d docUri docPath tempFile
      (some ('/' :: joinSegs srSegs)) (some wr) =
      pathToFileURL (pathJoin wr (joinSegs relSegs)) := by
    unfold resolveDefinitionUri
    rw [hfile]
    simp only [Option.map_some']
    rw [htrim]
    simp only [habs, List.cons_ne_nil, if_false, if_true]
    rw [if_neg hcond, if_neg hdoc, hrelat]
    simp [hdots, hdots', hrelabs]
  unfold onDefinitionLocation
  rw [hresolve]

/-- Witness for `C6_resolveDefinitionUri_amended` at the shadow root
`/tmp/shadow`, workspace root `/ws`, result `/tmp/shadow/sub/C.ump`, line 3,
column 4: the location is `file:///ws/sub/C.ump` at 0-based (2, 3),
zero-width. -/
theorem C6_resolveDefinitionUri_amended_witness :
    onDefinitionLocation
      { found := true, file := some "/tmp/shadow/sub/C.ump".data,
        line := some 3, col := some 4 }
      "file:///ws/B.ump".data (some "/ws/B.ump".data)
      "/tmp/shadow/B.ump".data (some "/tmp/shadow".data) (some "/ws".data) =
      { uri := "file:///ws/sub/C.ump".data, startLine := 2, startChar := 3,
        endLine := 2, endChar := 3 } := by
  have happ := C6_resolveDefinitionUri_amended
    ["tmp".data, "shadow".data] ["sub".data, "C.ump".data] "/ws".data
    (by decide) (by decide) (by decide) (by decide)
    { found := true, file := some "/tmp/shadow/sub/C.ump".data,
      line := some 3, col := some 4 }
    "file:///ws/B.ump".data (some "/ws/B.ump".data) "/tmp/shadow/B.ump".data
    (by decide) (by decide) (by decide) (by decide)
  have hsr : ('/' :: joinSegs (["tmp".data, "shadow".data])) =
      "/tmp/shadow".data := by decide
  have hrp : ('/' :: joinSegs (["tmp".data, "shadow".data] ++
      ["sub".data, "C.ump".data])) = "/tmp/shadow/sub/C.ump".data := by decide
  rw [hsr] at happ
  refine happ.trans ?_
  have h1 : pathToFileURL (pathJoin "/ws".data
      (joinSegs ["sub".data, "C.ump".data])) = "file:///ws/sub/C.ump".data := by
    decide
  rw [h1]
  rfl

/-! ## Shadow-workspace lifecycle (`createShadowWorkspace`, lines 650-679,
inside `onDefinition`, lines 159-229)

The resource flow of one definition request, as a trace of filesystem
actions.  External outcomes are an oracle: whether the document maps to a
workspace root, and whether mirroring, overlaying or the external lookup
throws.  Key structure of the source: `createShadowWorkspace` runs
`mkdtemp`, then `mirrorWorkspaceUmpleFiles`, then `overlayOpenDocuments`
(lines 663-667) with no try/finally of its own — its `cleanup` closure is
only created on successful return (lines 671-678); in `onDefinition` the
call sits *before* the `try` block (line 171), whose `finally`
(lines 226-228) runs the cleanup of whichever resource was returned. -/

inductive DefAction where
  | mkdtemp : DefAction
  | mirror : DefAction
  | overlay : DefAction
  | writeTemp : DefAction
  | runLookup : DefAction
  | rmShadow : DefAction
  | rmTempFile : DefAction
  | logWarn : DefAction
deriving DecidableEq, Repr

structure DefOracle where
  hasRoot : Bool
  mirrorThrows : Bool
  overlayThrows : Bool
  lookupThrows : Bool
deriving DecidableEq, Repr

/-- `createShadowWorkspace` (lines 650-679): `none` inside `ok` models the
`null` return (no document path or workspace root, lines 654-661); an
exception from mirroring or overlaying propagates to the caller with the
`mkdtemp`-created directory left on disk. -/
def createShadowWorkspaceFlow (o : DefOracle) :
    Except Unit (Option Unit) × List DefAction :=
  if ¬ o.hasRoot then (Except.ok none, [])
  else if o.mirrorThrows then
    (Except.error (), [DefAction.mkdtemp, DefAction.mirror])
  else if o.overlayThrows then
    (Except.error (), [DefAction.mkdtemp, DefAction.mirror, DefAction.overlay])
  else
    (Except.ok (some ()), [DefAction.mkdtemp, DefAction.mirror, DefAction.overlay])

/-- The resource flow of `onDefinition` (lines 159-229): build the shadow
workspace (an exception here escapes the handler — line 171 is before the
`try`); fall back to a temp file when it is unavailable; run the lookup in
the `try`, logging a warning in the `catch` (line 224); the `finally`
(line 227) removes the shadow directory or temp file that was returned. -/
def onDefinitionFlow (o : DefOracle) : Except Unit Unit × List DefAction :=
  match createShadowWorkspaceFlow o with
  | (Except.error e, t) => (Except.error e, t)
  | (Except.ok shadow, t) =>
      (Except.ok (),
        t ++ (if shadow.isSome then [] else [DefAction.writeTemp]) ++
        [DefAction.runLookup] ++
        (if o.lookupThrows then [DefAction.logWarn] else []) ++
        [if shadow.isSome then DefAction.rmShadow else DefAction.rmTempFile])

/-- C8 counterexample: when mirroring throws (e.g. `fs.promises.symlink`
fails with a code other than `EEXIST`/`EPERM`/`EACCES`, rethrown at
line 735, or `readdir` fails), the request creates the shadow directory but
never removes it — the exception leaves `createShadowWorkspace` before a
cleanup closure exists, and `onDefinition`'s `finally` never runs for it. -/
theorem C8_shadow_cleanup_counterexample :
    DefAction.mkdtemp ∈
      (onDefinitionFlow
        { hasRoot := true, mirrorThrows := true, overlayThrows := false,
          lookupThrows := false }).2 ∧
    DefAction.rmShadow ∉
      (onDefinitionFlow
        { hasRoot := true, mirrorThrows := true, overlayThrows := false,
          lookupThrows := false }).2 ∧
    (onDefinitionFlow
        { hasRoot := true, mirrorThrows := true, overlayThrows := false,
          lookupThrows := false }).1 = Except.error () := by
  refine ⟨by decide, by decide, rfl⟩

/-- C8 as amended: once the shadow workspace is *fully built* (mirroring and
overlaying do not throw), the directory is removed by the end of the
request, whether or not the external lookup throws, and the handler returns
normally; but a mirror/overlay failure leaks the directory (see the
counterexample). -/
theorem C8_shadow_cleanup_amended (o : DefOracle)
    (hm : o.mirrorThrows = false) (hov : o.overlayThrows = false) :
    (DefAction.mkdtemp ∈ (onDefinitionFlow o).2 →
      DefAction.rmShadow ∈ (onDefinitionFlow o).2) ∧
    (onDefinitionFlow o).1 = Except.ok () := by
  obtain ⟨hr, mt, ov, lt⟩ := o
  simp only at hm hov
  subst hm; subst hov
  cases hr <;> cases lt <;> exact ⟨by decide, rfl⟩

/-- Witness for `C8_shadow_cleanup_amended` at the run where the build
succeeds and the external lookup throws: the directory is created and
removed. -/
theorem C8_shadow_cleanup_amended_witness :
    DefAction.mkdtemp ∈
      (onDefinitionFlow
        { hasRoot := true, mirrorThrows := false, overlayThrows := false,
          lookupThrows := true }).2 ∧
    DefAction.rmShadow ∈
      (onDefinitionFlow
        { hasRoot := true, mirrorThrows := false, overlayThrows := false,
          lookupThrows := true }).2 :=
  ⟨by decide,
    (C8_shadow_cleanup_amended
      { hasRoot := true, mirrorThrows := false, overlayThrows := false,
        lookupThrows := true } rfl rfl).1 (by decide)⟩

/-! ## Validation failure policy (`validateTextDocument`, lines 243-251, and
`runUmpleSyncAndParseDiagnostics`, lines 307-327)

The timer callback runs `void validateTextDocument(document)` (line 238).
`validateTextDocument` awaits `runUmpleSyncAndParseDiagnostics` and then
publishes; `runUmpleSyncAndParseDiagnostics` wraps the Bridge dispatch in
`try ... finally cleanup` with *no catch*: a dispatch failure removes the
temp file, rejects the promise, skips `sendDiagnostics`, and is not caught
or logged anywhere in the validation path (the rejection leaves the timer
callback unhandled).  The flow below returns the action trace and whether
the validation promise rejected; `jarOk` is whether `resolveJarPath`
produced a configured, existing jar (lines 253-275). -/

inductive ValAction where
  | writeTemp : ValAction
  | dispatch : ValAction
  | rmTemp : ValAction
  | publish : ValAction
  | logMsg : ValAction
deriving DecidableEq, Repr

def validateTextDocumentFlow (jarOk dispatchThrows : Bool) :
    List ValAction × Bool :=
  if ¬ jarOk then ([], false)
  else if dispatchThrows then
    ([ValAction.writeTemp, ValAction.dispatch, ValAction.rmTemp], true)
  else
    ([ValAction.writeTemp, ValAction.dispatch, ValAction.rmTemp,
      ValAction.publish], false)

/-- C9 counterexample: when the Bridge dispatch throws during a debounced
validation, nothing in the validation path logs the failure — there is no
`catch` in `validateTextDocument` or `runUmpleSyncAndParseDiagnostics`, and
the rejection escapes the timer callback — while indeed no diagnostics are
published.  The claim's "the failure is logged" part is false. -/
theorem C9_validate_failure_counterexample :
    ValAction.logMsg ∉ (validateTextDocumentFlow true true).1 ∧
    ValAction.publish ∉ (validateTextDocumentFlow true true).1 ∧
    (validateTextDocumentFlow true true).2 = true := by
  refine ⟨by decide, by decide, by decide⟩

/-- C9 as amended: if the Bridge dispatch during a debounced validation
fails, no diagnostics message is published for that buffer (previously
published diagnostics remain in effect); the temp file is still removed,
but the failure is not logged — the rejected promise propagates out of the
timer callback unhandled rather than a hard error being surfaced through
the protocol. -/
theorem C9_validate_failure_amended (jarOk : Bool) :
    ValAction.publish ∉ (validateTextDocumentFlow jarOk true).1 ∧
    (jarOk = true →
      (validateTextDocumentFlow jarOk true).2 = true ∧
      ValAction.rmTemp ∈ (validateTextDocumentFlow jarOk true).1 ∧
      ValAction.logMsg ∉ (validateTextDocumentFlow jarOk true).1) := by
  cases jarOk
  · exact ⟨by decide, fun h => absurd h (by decide)⟩
  · exact ⟨by decide, fun _ => ⟨by decide, by decide, by decide⟩⟩

/-- Witness for `C9_validate_failure_amended` with the jar configured. -/
theorem C9_validate_failure_amended_witness :
    ValAction.publish ∉ (validateTextDocumentFlow true true).1 ∧
    ((validateTextDocumentFlow true true).2 = true ∧
      ValAction.rmTemp ∈ (validateTextDocumentFlow true true).1 ∧
      ValAction.logMsg ∉ (validateTextDocumentFlow true true).1) :=
  ⟨(C9_validate_failure_amended true).1,
    (C9_validate_failure_amended true).2 rfl⟩

end UmpleLsp
